import Mathlib

/-!
Verification of the AES-256-GCM prelude wrapper
(`crates/prelude/src/crypto/gcm.rs`).

The wrapper delegates the actual cryptography to an external host
collaborator exposing three primitives (query-support, encrypt, decrypt).
We embed the wrapper shallowly: bytes are `Nat`, buffers are `List Nat`,
nullable raw pointers become `Option (List Nat)` (the pointed-to bytes, or
`none` for a null pointer), and out-pointers become fields holding the
buffer contents at call time, with the host returning the bytes it writes.
Writing through a pointer cannot change the allocated length of a Rust
buffer, so the post-call contents of an out-buffer are `writeBuf buf w`:
the written bytes replace a prefix of the buffer, whose length is fixed.
The host is an explicit `Host` value (its primitives are opaque to the
wrapper, exactly as the `unsafe` API calls are in the source).
-/

namespace Gcm

/-- The contents of a fixed-length buffer after the host wrote the byte
sequence `w` through a raw pointer to it: the written bytes replace a
prefix, and the allocation length of `buf` never changes. -/
def writeBuf (buf w : List Nat) : List Nat :=
  (w ++ buf.drop w.length).take buf.length

/-- Modelled from the spec: the applet-API `Support` enum of the host
boundary (crate `wasefire-applet-api`, not under `src/`); per the spec
table, bit `NoCopy` = 0 and bit `InPlaceNoCopy` = 1 of the support
bitmask. -/
inductive ApiSupport where
  | NoCopy
  | InPlaceNoCopy
deriving DecidableEq

/-- Modelled from the spec: the `as u32` discriminant of each
`ApiSupport` variant, i.e. its bit position in the bitmask. -/
def ApiSupport.toNat : ApiSupport → Nat
  | .NoCopy => 0
  | .InPlaceNoCopy => 1

/-- Modelled from the spec: the error type of the prelude crate
(`super::Error`, not under `src/`). The host status code is opaque beyond
success/failure at this layer; the raw code is preserved for
diagnostics. -/
structure Error where
  code : Nat
deriving DecidableEq

/-- Modelled from the spec: `Error::to_result` (not under `src/`), the
single mapping from a host status code to a result: status 0 is success,
any non-zero status maps deterministically to an error carrying the
code. -/
def Error.to_result (res : Nat) : Except Error Unit :=
  if res = 0 then Except.ok () else Except.error { code := res }

/-- Mirrors `api::encrypt::Params`: key (32B), iv (12B), aad and its
length, the common buffer length, the nullable cleartext input pointer
(`none` = null = in-place mode), and the contents at call time of the
buffers targeted by the ciphertext and tag out-pointers. -/
structure EncryptParams where
  key : List Nat
  iv : List Nat
  aad : List Nat
  aad_len : Nat
  length : Nat
  clear : Option (List Nat)
  cipher : List Nat
  tag : List Nat
deriving DecidableEq

/-- Mirrors `api::encrypt::Results` together with the bytes the host
writes through the two out-pointers: the status code `res`, the bytes
written to the ciphertext buffer, and the bytes written to the tag
buffer. -/
structure EncryptResults where
  res : Nat
  cipher : List Nat
  tag : List Nat
deriving DecidableEq

/-- Mirrors `api::decrypt::Params`: key (32B), iv (12B), aad and its
length, the 16-byte tag input, the common buffer length, the nullable
ciphertext input pointer (`none` = null = in-place mode), and the
contents at call time of the buffer targeted by the cleartext
out-pointer. -/
structure DecryptParams where
  key : List Nat
  iv : List Nat
  aad : List Nat
  aad_len : Nat
  tag : List Nat
  length : Nat
  cipher : Option (List Nat)
  clear : List Nat
deriving DecidableEq

/-- Mirrors `api::decrypt::Results` together with the bytes the host
writes through the cleartext out-pointer. -/
structure DecryptResults where
  res : Nat
  clear : List Nat
deriving DecidableEq

/-- The external host collaborator: the support bitmask returned by the
query-support primitive, and the encrypt and decrypt primitives, each a
function from a flat parameter block to a status code plus the bytes
written through the out-pointers. -/
structure Host where
  support : Nat
  encrypt : EncryptParams → EncryptResults
  decrypt : DecryptParams → DecryptResults

/-- Mirrors `Support`: how AES-256-GCM is supported. -/
structure Support where
  no_copy : Bool
  in_place_no_copy : Bool
deriving DecidableEq

/-- Mirrors `Cipher`: ciphertext plus 16-byte tag. -/
structure Cipher where
  text : List Nat
  tag : List Nat
deriving DecidableEq

/-- Mirrors `is_supported`: whether AES-256-GCM is supported at all
(the whole bitmask is non-zero). -/
def is_supported (h : Host) : Bool :=
  h.support != 0

/-- Mirrors `support`: the fine-grained aliasing support flags, read off
bits `NoCopy` and `InPlaceNoCopy` of the bitmask. -/
def support (h : Host) : Support :=
  { no_copy := (h.support &&& (1 <<< ApiSupport.NoCopy.toNat)) != 0
  , in_place_no_copy := (h.support &&& (1 <<< ApiSupport.InPlaceNoCopy.toNat)) != 0 }

/-- The parameter block `encrypt` passes to the host primitive: non-null
cleartext input pointer, a freshly allocated zeroed ciphertext buffer of
the cleartext length, and a zeroed 16-byte tag buffer. -/
def encryptParams (key iv aad clear : List Nat) : EncryptParams :=
  { key := key, iv := iv, aad := aad, aad_len := aad.length
  , length := clear.length, clear := some clear
  , cipher := List.replicate clear.length 0, tag := List.replicate 16 0 }

/-- Mirrors `encrypt`: encrypts and authenticates a cleartext through the
host primitive, returning the `Cipher` artifact on status 0. -/
def encrypt (h : Host) (key iv aad clear : List Nat) : Except Error Cipher :=
  let p := encryptParams key iv aad clear
  let r := h.encrypt p
  let text := writeBuf p.cipher r.cipher
  let tag := writeBuf p.tag r.tag
  match Error.to_result r.res with
  | Except.error e => Except.error e
  | Except.ok _ => Except.ok { text := text, tag := tag }

/-- The parameter block `encrypt_in_place` passes to the host primitive:
null cleartext input pointer, the caller's buffer as the ciphertext
out-pointer, and a zeroed 16-byte tag buffer. -/
def encryptInPlaceParams (key iv aad buffer : List Nat) : EncryptParams :=
  { key := key, iv := iv, aad := aad, aad_len := aad.length
  , length := buffer.length, clear := none
  , cipher := buffer, tag := List.replicate 16 0 }

/-- Mirrors `encrypt_in_place`: encrypts and authenticates the caller's
buffer in place. Returns the post-call buffer contents (the buffer is
written regardless of the status) and, on status 0, the 16-byte tag. -/
def encrypt_in_place (h : Host) (key iv aad buffer : List Nat) :
    List Nat × Except Error (List Nat) :=
  let p := encryptInPlaceParams key iv aad buffer
  let r := h.encrypt p
  let buffer1 := writeBuf p.cipher r.cipher
  let tag := writeBuf p.tag r.tag
  (buffer1,
    match Error.to_result r.res with
    | Except.error e => Except.error e
    | Except.ok _ => Except.ok tag)

/-- The parameter block `decrypt` passes to the host primitive: the tag
from the `Cipher` artifact, a non-null ciphertext input pointer, and a
freshly allocated zeroed cleartext buffer of the ciphertext length. -/
def decryptParams (key iv aad : List Nat) (cipher : Cipher) : DecryptParams :=
  { key := key, iv := iv, aad := aad, aad_len := aad.length
  , tag := cipher.tag, length := cipher.text.length
  , cipher := some cipher.text, clear := List.replicate cipher.text.length 0 }

/-- Mirrors `decrypt`: decrypts and authenticates a `Cipher` artifact
through the host primitive, returning the cleartext on status 0. -/
def decrypt (h : Host) (key iv aad : List Nat) (cipher : Cipher) :
    Except Error (List Nat) :=
  let p := decryptParams key iv aad cipher
  let r := h.decrypt p
  let clear := writeBuf p.clear r.clear
  match Error.to_result r.res with
  | Except.error e => Except.error e
  | Except.ok _ => Except.ok clear

/-- The parameter block `decrypt_in_place` passes to the host primitive:
the standalone 16-byte tag, a null ciphertext input pointer, and the
caller's buffer as the cleartext out-pointer. -/
def decryptInPlaceParams (key iv aad tag buffer : List Nat) : DecryptParams :=
  { key := key, iv := iv, aad := aad, aad_len := aad.length
  , tag := tag, length := buffer.length
  , cipher := none, clear := buffer }

/-- Mirrors `decrypt_in_place`: decrypts and authenticates the caller's
buffer in place. Returns the post-call buffer contents (written
regardless of the status) and, on status 0, unit. -/
def decrypt_in_place (h : Host) (key iv aad tag buffer : List Nat) :
    List Nat × Except Error Unit :=
  let p := decryptInPlaceParams key iv aad tag buffer
  let r := h.decrypt p
  let buffer1 := writeBuf p.clear r.clear
  (buffer1,
    match Error.to_result r.res with
    | Except.error e => Except.error e
    | Except.ok _ => Except.ok ())

/-- An abstract AES-256-GCM function: from key, iv, aad and cleartext to
ciphertext and tag. Used only as a parameter of the host-correctness
hypothesis. -/
structure GcmSpec where
  enc : List Nat → List Nat → List Nat → List Nat → List Nat × List Nat

/-- The hypothesis that the host implements AES-256-GCM correctly,
relative to an abstract GCM function `G`: on well-formed parameter
blocks (32-byte key, 12-byte iv, length matching the input buffer) the
encrypt primitive writes `G.enc` of the cleartext — taken from the input
pointer in copying mode, from the ciphertext buffer in in-place mode —
and reports status 0; the decrypt primitive, given the ciphertext and
tag that `G.enc` produces for some cleartext, writes that cleartext and
reports status 0. `G.enc` preserves lengths and produces 16-byte tags. -/
structure HostCorrect (G : GcmSpec) (h : Host) : Prop where
  enc_len : ∀ key iv aad clear, ((G.enc key iv aad clear).1).length = clear.length
  tag_len : ∀ key iv aad clear, ((G.enc key iv aad clear).2).length = 16
  enc_copy : ∀ p clear, p.key.length = 32 → p.iv.length = 12 →
    p.clear = some clear → p.length = clear.length →
    h.encrypt p = { res := 0, cipher := (G.enc p.key p.iv p.aad clear).1
                  , tag := (G.enc p.key p.iv p.aad clear).2 }
  enc_inplace : ∀ p, p.key.length = 32 → p.iv.length = 12 →
    p.clear = none → p.length = p.cipher.length →
    h.encrypt p = { res := 0, cipher := (G.enc p.key p.iv p.aad p.cipher).1
                  , tag := (G.enc p.key p.iv p.aad p.cipher).2 }
  dec_copy : ∀ p clear, p.key.length = 32 → p.iv.length = 12 →
    p.cipher = some ((G.enc p.key p.iv p.aad clear).1) →
    p.tag = (G.enc p.key p.iv p.aad clear).2 →
    p.length = clear.length →
    h.decrypt p = { res := 0, clear := clear }

/-- A degenerate but round-trip-consistent GCM function (identity
ciphertext, zero tag), used to exhibit concrete hosts satisfying
`HostCorrect`. -/
def idG : GcmSpec :=
  { enc := fun _ _ _ clear => (clear, List.replicate 16 0) }

/-- A concrete host realizing `idG`: echoes the cleartext as ciphertext
(reading the output buffer itself when the input pointer is null), writes
a zero tag, and always reports status 0. Its support bitmask is 0. -/
def idHost : Host :=
  { support := 0
  , encrypt := fun p => { res := 0, cipher := p.clear.getD p.cipher
                        , tag := List.replicate 16 0 }
  , decrypt := fun p => { res := 0, clear := p.cipher.getD p.clear } }

/-- A concrete host whose primitives always report status 1 (failure)
and write nothing. -/
def failHost : Host :=
  { support := 0
  , encrypt := fun p => { res := 1, cipher := p.cipher, tag := p.tag }
  , decrypt := fun p => { res := 1, clear := p.clear } }

/-- A concrete host whose support bitmask is 4: only a bit other than
`NoCopy` (0) and `InPlaceNoCopy` (1) is set. -/
def host4 : Host :=
  { idHost with support := 4 }

/-- The 32-byte all-zero key. -/
def keyZ : List Nat := List.replicate 32 0

/-- The 12-byte all-zero nonce. -/
def ivZ : List Nat := List.replicate 12 0

theorem writeBuf_length (buf w : List Nat) : (writeBuf buf w).length = buf.length := by
  simp only [writeBuf, List.length_take, List.length_append, List.length_drop]
  omega

theorem writeBuf_of_length_eq (buf w : List Nat) (h : w.length = buf.length) :
    writeBuf buf w = w := by
  simp [writeBuf, h, List.drop_length]

theorem hostCorrect_idHost : HostCorrect idG idHost := by
  refine ⟨?_, ?_, ?_, ?_, ?_⟩
  · intro key iv aad clear; rfl
  · intro key iv aad clear; simp [idG]
  · intro p clear _ _ hc _
    simp [idHost, idG, hc]
  · intro p _ _ hc _
    simp [idHost, idG, hc]
  · intro p clear _ _ hc ht _
    simp [idHost, idG, hc]

theorem and_shift_ne_zero (n i : Nat) :
    ((n &&& (1 <<< i)) != 0) = n.testBit i := by
  rw [Nat.shiftLeft_eq, one_mul, Nat.and_two_pow]
  cases h : n.testBit i <;> simp [Nat.pos_iff_ne_zero.mp (Nat.two_pow_pos i)]

/-- Claim C6: `is_supported` returns `false` exactly when the host's
support bitmask is zero, and in that case the `Support` descriptor has
both `no_copy` and `in_place_no_copy` false. -/
theorem is_supported_false_iff_zero (h : Host) :
    (is_supported h = false ↔ h.support = 0) ∧
    (h.support = 0 →
      (support h).no_copy = false ∧ (support h).in_place_no_copy = false) := by
  constructor
  · simp [is_supported]
  · intro hz
    simp [support, hz]

/-- Witness for C6 at the concrete host `idHost`, whose bitmask is 0. -/
theorem is_supported_false_iff_zero_witness :
    (support idHost).no_copy = false ∧ (support idHost).in_place_no_copy = false :=
  (is_supported_false_iff_zero idHost).2 rfl

/-- Claim C7: the `no_copy` flag of `support` is exactly bit 0 (`NoCopy`)
of the host bitmask, and `in_place_no_copy` is exactly bit 1
(`InPlaceNoCopy`). -/
theorem support_flags_are_bits (h : Host) :
    (support h).no_copy = h.support.testBit 0 ∧
    (support h).in_place_no_copy = h.support.testBit 1 :=
  ⟨and_shift_ne_zero h.support 0, and_shift_ne_zero h.support 1⟩

/-- Claim C9: there is a host bitmask (here 4) on which `is_supported`
returns `true` while both flags of the `Support` descriptor are false. -/
theorem is_supported_support_disagree :
    ∃ h : Host, is_supported h = true ∧
      (support h).no_copy = false ∧ (support h).in_place_no_copy = false :=
  ⟨host4, by decide, by decide, by decide⟩

/-- Claim C5: the in-place variants pass a null input pointer to the host
(`clear = none` for `encrypt_in_place`, `cipher = none` for
`decrypt_in_place`) with the caller's buffer as the output buffer, while
the copying variants pass a non-null input pointer and a freshly
allocated zeroed output buffer distinct from it. -/
theorem null_pointer_selects_in_place (key iv aad clear buffer tag : List Nat)
    (c : Cipher) :
    (encryptInPlaceParams key iv aad buffer).clear = none ∧
    (encryptInPlaceParams key iv aad buffer).cipher = buffer ∧
    (decryptInPlaceParams key iv aad tag buffer).cipher = none ∧
    (decryptInPlaceParams key iv aad tag buffer).clear = buffer ∧
    (encryptParams key iv aad clear).clear = some clear ∧
    (encryptParams key iv aad clear).cipher = List.replicate clear.length 0 ∧
    (decryptParams key iv aad c).cipher = some c.text ∧
    (decryptParams key iv aad c).clear = List.replicate c.text.length 0 :=
  ⟨rfl, rfl, rfl, rfl, rfl, rfl, rfl, rfl⟩

/-- The `Cipher` artifact `encrypt` produces at `idHost` on the empty
cleartext. -/
def cEmpty : Cipher :=
  { text := [], tag := List.replicate 16 0 }

/-- A one-byte `Cipher` artifact with a zero tag. -/
def cOne : Cipher :=
  { text := [5], tag := List.replicate 16 0 }

/-- Claim C2: any `Cipher` artifact returned by a successful `encrypt`
has ciphertext of exactly the cleartext's length and a 16-byte tag, for
every host and every input, the empty cleartext included. -/
theorem encrypt_length_preservation (h : Host) (key iv aad clear : List Nat)
    (c : Cipher) (hok : encrypt h key iv aad clear = Except.ok c) :
    c.text.length = clear.length ∧ c.tag.length = 16 := by
  simp only [encrypt] at hok
  cases hr : Error.to_result (h.encrypt (encryptParams key iv aad clear)).res with
  | error e => rw [hr] at hok; exact absurd hok (by simp)
  | ok u =>
    rw [hr] at hok
    simp only [Except.ok.injEq] at hok
    subst hok
    constructor
    · simp [encryptParams, writeBuf_length]
    · simp [encryptParams, writeBuf_length]

/-- Witness for C2 at `idHost` with the empty cleartext. -/
theorem encrypt_length_preservation_witness :
    cEmpty.text.length = List.length ([] : List Nat) ∧ cEmpty.tag.length = 16 :=
  encrypt_length_preservation idHost keyZ ivZ [] [] cEmpty (by rfl)

/-- Claim C3: whenever the host reports a non-zero status, each of the
four operations returns an error and no success value: `encrypt` yields
no `Cipher` artifact, `encrypt_in_place` no tag, `decrypt` no cleartext,
`decrypt_in_place` no unit success. -/
theorem error_means_no_output :
    (∀ (h : Host) (key iv aad clear : List Nat),
      (h.encrypt (encryptParams key iv aad clear)).res ≠ 0 →
      ∃ e, encrypt h key iv aad clear = Except.error e) ∧
    (∀ (h : Host) (key iv aad buffer : List Nat),
      (h.encrypt (encryptInPlaceParams key iv aad buffer)).res ≠ 0 →
      ∃ e, (encrypt_in_place h key iv aad buffer).2 = Except.error e) ∧
    (∀ (h : Host) (key iv aad : List Nat) (c : Cipher),
      (h.decrypt (decryptParams key iv aad c)).res ≠ 0 →
      ∃ e, decrypt h key iv aad c = Except.error e) ∧
    (∀ (h : Host) (key iv aad tag buffer : List Nat),
      (h.decrypt (decryptInPlaceParams key iv aad tag buffer)).res ≠ 0 →
      ∃ e, (decrypt_in_place h key iv aad tag buffer).2 = Except.error e) := by
  refine ⟨?_, ?_, ?_, ?_⟩
  · intro h key iv aad clear hne
    exact ⟨{ code := (h.encrypt (encryptParams key iv aad clear)).res },
      by simp [encrypt, Error.to_result, hne]⟩
  · intro h key iv aad buffer hne
    exact ⟨{ code := (h.encrypt (encryptInPlaceParams key iv aad buffer)).res },
      by simp [encrypt_in_place, Error.to_result, hne]⟩
  · intro h key iv aad c hne
    exact ⟨{ code := (h.decrypt (decryptParams key iv aad c)).res },
      by simp [decrypt, Error.to_result, hne]⟩
  · intro h key iv aad tag buffer hne
    exact ⟨{ code := (h.decrypt (decryptInPlaceParams key iv aad tag buffer)).res },
      by simp [decrypt_in_place, Error.to_result, hne]⟩

/-- Witness for C3 at the always-failing host `failHost`. -/
theorem error_means_no_output_witness :
    (∃ e, encrypt failHost keyZ ivZ [] [1] = Except.error e) ∧
    (∃ e, (encrypt_in_place failHost keyZ ivZ [] [1]).2 = Except.error e) ∧
    (∃ e, decrypt failHost keyZ ivZ [] cOne = Except.error e) ∧
    (∃ e, (decrypt_in_place failHost keyZ ivZ [] (List.replicate 16 0) [1]).2 =
      Except.error e) :=
  ⟨error_means_no_output.1 failHost keyZ ivZ [] [1] (by decide),
   error_means_no_output.2.1 failHost keyZ ivZ [] [1] (by decide),
   error_means_no_output.2.2.1 failHost keyZ ivZ [] cOne (by decide),
   error_means_no_output.2.2.2 failHost keyZ ivZ [] (List.replicate 16 0) [1]
     (by decide)⟩

/-- Claim C8: `decrypt` hands the host a freshly allocated zeroed
cleartext buffer of exactly the ciphertext's length, and any successful
result has exactly that length. -/
theorem decrypt_fresh_buffer (h : Host) (key iv aad : List Nat) (c : Cipher)
    (out : List Nat) :
    (decryptParams key iv aad c).clear = List.replicate c.text.length 0 ∧
    (decrypt h key iv aad c = Except.ok out → out.length = c.text.length) := by
  refine ⟨rfl, ?_⟩
  intro hok
  simp only [decrypt] at hok
  cases hr : Error.to_result (h.decrypt (decryptParams key iv aad c)).res with
  | error e => rw [hr] at hok; exact absurd hok (by simp)
  | ok u =>
    rw [hr] at hok
    simp only [Except.ok.injEq] at hok
    subst hok
    simp [decryptParams, writeBuf_length]

/-- Witness for C8 at `idHost` on a one-byte ciphertext. -/
theorem decrypt_fresh_buffer_witness :
    (decryptParams keyZ ivZ [] cOne).clear = List.replicate cOne.text.length 0 ∧
    List.length [5] = cOne.text.length :=
  ⟨(decrypt_fresh_buffer idHost keyZ ivZ [] cOne [5]).1,
   (decrypt_fresh_buffer idHost keyZ ivZ [] cOne [5]).2 (by rfl)⟩

/-- Claim C10: this layer validates nothing itself: each operation
returns an error exactly when `Error.to_result` of the host's status code
does, with the same error value, and `Error.to_result` errs exactly on a
non-zero code, the error determined solely by that code. -/
theorem single_error_mapping :
    (∀ (r : Nat) (e : Error),
      Error.to_result r = Except.error e ↔ r ≠ 0 ∧ e = { code := r }) ∧
    (∀ (h : Host) (key iv aad clear : List Nat) (e : Error),
      encrypt h key iv aad clear = Except.error e ↔
      Error.to_result (h.encrypt (encryptParams key iv aad clear)).res =
        Except.error e) ∧
    (∀ (h : Host) (key iv aad buffer : List Nat) (e : Error),
      (encrypt_in_place h key iv aad buffer).2 = Except.error e ↔
      Error.to_result (h.encrypt (encryptInPlaceParams key iv aad buffer)).res =
        Except.error e) ∧
    (∀ (h : Host) (key iv aad : List Nat) (c : Cipher) (e : Error),
      decrypt h key iv aad c = Except.error e ↔
      Error.to_result (h.decrypt (decryptParams key iv aad c)).res =
        Except.error e) ∧
    (∀ (h : Host) (key iv aad tag buffer : List Nat) (e : Error),
      (decrypt_in_place h key iv aad tag buffer).2 = Except.error e ↔
      Error.to_result (h.decrypt (decryptInPlaceParams key iv aad tag buffer)).res =
        Except.error e) := by
  refine ⟨?_, ?_, ?_, ?_, ?_⟩
  · intro r e
    by_cases hr : r = 0
    · simp [Error.to_result, hr]
    · simp [Error.to_result, hr, eq_comm]
  · intro h key iv aad clear e
    simp only [encrypt]
    cases hr : Error.to_result (h.encrypt (encryptParams key iv aad clear)).res <;>
      simp [hr]
  · intro h key iv aad buffer e
    simp only [encrypt_in_place]
    cases hr :
        Error.to_result (h.encrypt (encryptInPlaceParams key iv aad buffer)).res <;>
      simp [hr]
  · intro h key iv aad c e
    simp only [decrypt]
    cases hr : Error.to_result (h.decrypt (decryptParams key iv aad c)).res <;>
      simp [hr]
  · intro h key iv aad tag buffer e
    simp only [decrypt_in_place]
    cases hr :
        Error.to_result (h.decrypt (decryptInPlaceParams key iv aad tag buffer)).res <;>
      simp [hr]

theorem encrypt_hostCorrect (G : GcmSpec) (h : Host) (hc : HostCorrect G h)
    (key iv aad clear : List Nat) (hk : key.length = 32) (hiv : iv.length = 12) :
    encrypt h key iv aad clear = Except.ok
      { text := (G.enc key iv aad clear).1, tag := (G.enc key iv aad clear).2 } := by
  have he : h.encrypt (encryptParams key iv aad clear) =
      { res := 0, cipher := (G.enc key iv aad clear).1
      , tag := (G.enc key iv aad clear).2 } :=
    hc.enc_copy _ clear hk hiv rfl rfl
  simp only [encrypt, he]
  rw [writeBuf_of_length_eq _ _ (by simp [encryptParams, hc.enc_len]),
    writeBuf_of_length_eq _ _ (by simp [encryptParams, hc.tag_len])]
  simp [Error.to_result]

/-- Claim C1: for a host that implements AES-256-GCM correctly (relative
to an abstract GCM function `G`, taken as a hypothesis), decrypting the
`Cipher` artifact produced by `encrypt` with the same 32-byte key,
12-byte nonce and aad returns the original cleartext. -/
theorem gcm_roundtrip (G : GcmSpec) (h : Host) (hc : HostCorrect G h)
    (key iv aad clear : List Nat) (hk : key.length = 32) (hiv : iv.length = 12) :
    ∃ c, encrypt h key iv aad clear = Except.ok c ∧
      decrypt h key iv aad c = Except.ok clear := by
  refine ⟨_, encrypt_hostCorrect G h hc key iv aad clear hk hiv, ?_⟩
  have hd : h.decrypt (decryptParams key iv aad
      { text := (G.enc key iv aad clear).1, tag := (G.enc key iv aad clear).2 }) =
      { res := 0, clear := clear } :=
    hc.dec_copy _ clear hk hiv rfl rfl (hc.enc_len key iv aad clear)
  simp only [decrypt, hd]
  rw [writeBuf_of_length_eq _ _ (by simp [decryptParams, hc.enc_len])]
  simp [Error.to_result]

/-- Witness for C1 at `idHost`, which realizes the abstract GCM function
`idG`. -/
theorem gcm_roundtrip_witness :
    ∃ c, encrypt idHost keyZ ivZ [] [104, 105] = Except.ok c ∧
      decrypt idHost keyZ ivZ [] c = Except.ok [104, 105] :=
  gcm_roundtrip idG idHost hostCorrect_idHost keyZ ivZ [] [104, 105]
    (by decide) (by decide)

/-- Claim C4: for a host that implements AES-256-GCM correctly,
`encrypt_in_place` on a buffer initialized with the cleartext leaves the
buffer holding exactly the ciphertext that `encrypt` returns, and returns
exactly the tag of the `Cipher` artifact `encrypt` returns. -/
theorem encrypt_in_place_equiv (G : GcmSpec) (h : Host) (hc : HostCorrect G h)
    (key iv aad clear : List Nat) (hk : key.length = 32) (hiv : iv.length = 12) :
    ∃ c, encrypt h key iv aad clear = Except.ok c ∧
      encrypt_in_place h key iv aad clear = (c.text, Except.ok c.tag) := by
  refine ⟨_, encrypt_hostCorrect G h hc key iv aad clear hk hiv, ?_⟩
  have he : h.encrypt (encryptInPlaceParams key iv aad clear) =
      { res := 0, cipher := (G.enc key iv aad clear).1
      , tag := (G.enc key iv aad clear).2 } :=
    hc.enc_inplace _ hk hiv rfl rfl
  simp only [encrypt_in_place, he]
  rw [writeBuf_of_length_eq _ _ (by simp [encryptInPlaceParams, hc.enc_len]),
    writeBuf_of_length_eq _ _ (by simp [encryptInPlaceParams, hc.tag_len])]
  simp [Error.to_result]

/-- Witness for C4 at `idHost`, which realizes the abstract GCM function
`idG`. -/
theorem encrypt_in_place_equiv_witness :
    ∃ c, encrypt idHost keyZ ivZ [] [104, 105] = Except.ok c ∧
      encrypt_in_place idHost keyZ ivZ [] [104, 105] = (c.text, Except.ok c.tag) :=
  encrypt_in_place_equiv idG idHost hostCorrect_idHost keyZ ivZ [] [104, 105]
    (by decide) (by decide)

end Gcm
